import Mathlib

/-
Shallow embedding of the data model and operations of the
device-locations-points API repository.

Source files embedded here:
  * locations/management/commands/add_cache.py  (Cache Populator: `Command.handle`)
  * locations/views.py                          (the three query views)
  * locations/utils/s3_csv_utils.py             (`read_csv_from_s3`: external
    Dataset Source; modelled as an `Option (List _)` argument, `none` meaning
    the S3 fetch failed, in which case the real function returns Python `None`)

External collaborators (pandas, redis, datetime.strptime, Python `int`/`float`)
are modelled as explicit Lean functions, with comments at each definition
saying which library behaviour they capture.
-/

namespace DeviceLoc

/-- LocationSample as the query views see it (views.py): one CSV row with
`device_fk_id` an integer, coordinates carried as their serialized cell text
(no arithmetic is ever performed on them), and `time_stamp` a string. -/
structure Sample where
  device_fk_id : Int
  latitude : String
  longitude : String
  time_stamp : String
deriving DecidableEq, Repr

/-- CSV row as the Cache Populator sees it before the
`df["time_stamp"].astype(str)` coercion (add_cache.py line 41): the
`time_stamp` cell may be missing, which pandas reads as NaN (`none` here). -/
structure RawSample where
  device_fk_id : Int
  latitude : String
  longitude : String
  time_stamp : Option String
deriving DecidableEq, Repr

/-- Coercion performed by `df["time_stamp"] = df["time_stamp"].astype(str)`
(add_cache.py line 41): a present string cell is unchanged, a missing cell
(pandas NaN) becomes the literal string "nan". -/
def astypeStr (r : RawSample) : Sample :=
  ⟨r.device_fk_id, r.latitude, r.longitude, r.time_stamp.getD "nan"⟩

/-- Position Cache: a redis instance holding one hash per key. A key with an
empty field list is indistinguishable from an absent key, exactly as in redis
(`hgetall` of a missing key returns an empty dict). Keys are strings; the
populator writes under `str(device_fk_id)` and the views read under the raw
URL path segment. -/
def Cache : Type := String → List (String × String)

/-- Field update of a redis hash / Python dict: replace the first binding of
the key in place, or append a fresh binding at the end. -/
def setField : List (String × String) → String → String → List (String × String)
  | [], k, v => [(k, v)]
  | (k', v') :: t, k, v =>
      if k' = k then (k, v) :: t else (k', v') :: setField t k v

/-- Field read of a redis hash / Python dict (redis `hget`): first binding of
the key, if any. -/
def lookupField : List (String × String) → String → Option String
  | [], _ => none
  | (k', v) :: t, k => if k' = k then some v else lookupField t k

/-- Lexicographic string comparison, the comparison pandas applies to two
string cells (`a < b` in Python). Computed over the character lists so the
kernel can evaluate it; `strLt_iff` ties it to the string order. -/
def strLt (a b : String) : Bool := decide (a.toList < b.toList)

/-- Lexicographic `a <= b` on strings, as used by the pandas mask
`df["time_stamp"] >= start` / `<= end` in views.py lines 263-264. -/
def strLe (a b : String) : Bool := decide (a.toList ≤ b.toList)

/-- Selection of the row with lexically maximal `time_stamp`, keeping the
earlier row on ties: this is `Series.idxmax` within one group
(add_cache.py line 44), which returns the first index attaining the maximum. -/
def selectLatest (best : Sample) : List Sample → Sample
  | [] => best
  | s :: rest =>
      if strLt best.time_stamp s.time_stamp then selectLatest s rest
      else selectLatest best rest

/-- Latest row of one `groupby("device_fk_id")` group: the rows with the given
device id, reduced by `idxmax` over `time_stamp`. Returns `none` when the
device has no rows (such a device is not a group key). -/
def latestFor (d : Int) (ss : List Sample) : Option Sample :=
  match ss.filter (fun s => s.device_fk_id == d) with
  | [] => none
  | h :: t => some (selectLatest h t)

/-- Group keys of `df.groupby("device_fk_id")`: the distinct device ids,
sorted ascending (pandas groupby sorts group keys by default). -/
def deviceIds (ss : List Sample) : List Int :=
  List.insertionSort (· ≤ ·) (ss.map (fun s => s.device_fk_id)).dedup

/-- Latest-Record Reducer
(`latest_data = df.loc[df.groupby("device_fk_id")["time_stamp"].idxmax()]`,
add_cache.py line 44): one row per distinct device id, each the lexically
latest row of its group, listed in ascending device-id order. -/
def reduce (ss : List Sample) : List Sample :=
  (deviceIds ss).filterMap (fun d => latestFor d ss)

/-- Field map written for one device (add_cache.py lines 49-53): the dict
passed to `redis_instance.hmset`. Coordinate cells are carried as text; the
numeric round-trip through pandas floats and `str()` is treated as opaque. -/
def entryData (r : Sample) : List (String × String) :=
  [("latitude", r.latitude), ("longitude", r.longitude), ("time_stamp", r.time_stamp)]

/-- Application of a dict of field updates to a hash, left to right, as redis
`hmset` applies its mapping argument. -/
def applySF (m : List (String × String)) (data : List (String × String)) :
    List (String × String) :=
  data.foldl (fun m kv => setField m kv.1 kv.2) m

/-- redis `hmset(key, data)`: set each field of `data` in the hash stored at
`key`, left to right, leaving all other keys untouched. -/
def hmset (c : Cache) (k : String) (data : List (String × String)) : Cache :=
  fun k' => if k' = k then applySF (c k') data else c k'

/-- Write loop of add_cache.py lines 47-54, made explicit about failure: `wf`
says which device's `hmset` call raises. A raising call writes nothing and the
exception propagates to the `except` block, so the remaining devices are not
visited and the command reports an error (`Bool` result `false`). -/
def writeLoop (wf : Int → Bool) : Cache → List Sample → Cache × Bool
  | c, [] => (c, true)
  | c, r :: rs =>
      if wf r.device_fk_id then (c, false)
      else writeLoop wf (hmset c (toString r.device_fk_id) (entryData r)) rs

/-- Cache Populator, `Command.handle` (add_cache.py lines 33-65). `fetch` is
the result of `read_csv_from_s3()`: `none` when the S3 read failed (the real
helper swallows the exception and returns Python `None`, and the subsequent
`df["time_stamp"]` access then raises before any write, landing in the
`except` block). Returns the final cache state and whether the command
reported success. -/
def handle (c : Cache) (fetch : Option (List RawSample)) (wf : Int → Bool) :
    Cache × Bool :=
  match fetch with
  | none => (c, false)
  | some df => writeLoop wf c (reduce (df.map astypeStr))

/-- Cache Populator run in which every redis write succeeds. -/
def populate (c : Cache) (df : List RawSample) : Cache :=
  (handle c (some df) (fun _ => false)).1

/-- Write loop with no failures, as a plain fold (used to state what a
completed run leaves in the cache). -/
def populateList (c : Cache) (rs : List Sample) : Cache :=
  rs.foldl (fun c r => hmset c (toString r.device_fk_id) (entryData r)) c

/-- Python `int(s)` on the URL path segment (`int(device_id)` in views.py
lines 112 and 262): optional sign followed by decimal digits; anything else
raises `ValueError` (`none` here). Whitespace stripping and underscore
grouping, which real `int` also accepts, are not exercised by any claim and
are left out. -/
def digitsToNat : List Char → Option Nat
  | [] => none
  | l =>
      l.foldl
        (fun acc c =>
          match acc with
          | none => none
          | some n => if c.isDigit then some (n * 10 + (c.toNat - 48)) else none)
        (some 0)

def pyInt (s : String) : Option Int :=
  match s.toList with
  | '-' :: rest => (digitsToNat rest).map (fun n => -(n : Int))
  | '+' :: rest => (digitsToNat rest).map (fun n => (n : Int))
  | l => (digitsToNat l).map (fun n => (n : Int))

/-- Python `float(s)` syntax check (`float(end_location_dict["latitude"])`,
views.py line 133): optional sign, then digits with at most one decimal
point and at least one digit. Exponents and `inf`/`nan` spellings, which real
`float` also accepts, are not exercised by any claim and are left out. -/
def isFloatLit (s : String) : Bool :=
  let l :=
    match s.toList with
    | '-' :: t => t
    | '+' :: t => t
    | t => t
  l.all (fun c => c.isDigit || c == '.') && l.count '.' ≤ 1 && l.any Char.isDigit

/-- Days in a month, with the Gregorian leap-year rule, as
`datetime.strptime` validates day-of-month. -/
def daysInMonth (y m : Nat) : Nat :=
  if m = 2 then
    if y % 4 = 0 && (y % 100 ≠ 0 || y % 400 = 0) then 29 else 28
  else if m = 4 || m = 6 || m = 9 || m = 11 then 30
  else 31

/-- Numeric value of two digit characters. -/
def digit2 (a b : Char) : Nat := (a.toNat - 48) * 10 + (b.toNat - 48)

/-- Success of `datetime.strptime(s, "%Y-%m-%dT%H:%M:%SZ")` (views.py lines
254-255): the whole string must be exactly 4-2-2 digit date, `T`, 2-2-2 digit
time, `Z`, with in-range month, day, hour, minute and second and year at
least 1. On failure the real call raises `ValueError`. -/
def strptimeOk (s : String) : Bool :=
  match s.toList with
  | [y1, y2, y3, y4, '-', m1, m2, '-', d1, d2, 'T',
     h1, h2, ':', n1, n2, ':', s1, s2, 'Z'] =>
      [y1, y2, y3, y4, m1, m2, d1, d2, h1, h2, n1, n2, s1, s2].all Char.isDigit &&
      (let y := digit2 y1 y2 * 100 + digit2 y3 y4
       let mo := digit2 m1 m2
       let da := digit2 d1 d2
       decide (1 ≤ y) && decide (1 ≤ mo) && decide (mo ≤ 12) &&
       decide (1 ≤ da) && decide (da ≤ daysInMonth y mo) &&
       decide (digit2 h1 h2 ≤ 23) && decide (digit2 n1 n2 ≤ 59) &&
       decide (digit2 s1 s2 ≤ 59))
  | _ => false

/-- Outcome of `LatestDeviceInfoAPIView.get` (views.py lines 29-79). -/
inductive LatestResult where
  | notFound
  | ok (data : List (String × String))
deriving DecidableEq, Repr

/-- HTTP status attached to each `LatestDeviceInfoAPIView` outcome
(views.py lines 57 and 68). -/
def LatestResult.status : LatestResult → Nat
  | .notFound => 404
  | .ok _ => 200

/-- LatestDeviceInfoAPIView.get (views.py lines 29-79): `hgetall(device_id)`,
404 when the hash is empty, otherwise the hash with `device_id` added, 200.
The view has access to the Dataset Source helper but never calls it; `fetch`
is threaded through unused so that independence from it can be stated. -/
def latestDeviceInfo (c : Cache) (_fetch : Option (List Sample)) (d : String) :
    LatestResult :=
  let m := c d
  if m.isEmpty then .notFound
  else .ok (setField m "device_id" d)

/-- Start position in a `StartEndLocationAPIView` response: either the raw
cached `start_location` value (used as-is, views.py line 106) or the
coordinates computed from the dataset (views.py lines 110-121). -/
inductive StartLoc where
  | fromCache (raw : String)
  | computed (latitude longitude : String)
deriving DecidableEq, Repr

/-- Outcome of `StartEndLocationAPIView.get` (views.py lines 93-159). Every
exception in the body lands in the single `except` block and yields the 500
response, so the only outcomes are a 200 payload or a server error. -/
inductive SEResult where
  | ok (device : String) (start : StartLoc) (endLatitude endLongitude : String)
  | serverError
deriving DecidableEq, Repr

/-- HTTP status attached to each `StartEndLocationAPIView` outcome
(views.py lines 150 and 158). -/
def SEResult.status : SEResult → Nat
  | .ok _ _ _ _ => 200
  | .serverError => 500

/-- Selection of the row with lexically minimal `time_stamp`, keeping the
earlier row on ties. `sort_values(by="time_stamp").iloc[0]` (views.py lines
113-114) yields a row of minimal timestamp; the sort is not stable, so which
tied row is returned is implementation-defined, and only minimality is relied
on in the theorems below. -/
def selectMin (best : Sample) : List Sample → Sample
  | [] => best
  | s :: rest =>
      if strLt s.time_stamp best.time_stamp then selectMin s rest
      else selectMin best rest

/-- First row of the device's rows sorted ascending by timestamp, `none` when
there are no rows (in which case `iloc[0]` raises `IndexError`). -/
def firstMinByTs : List Sample → Option Sample
  | [] => none
  | s :: t => some (selectMin s t)

/-- Start-location half of `StartEndLocationAPIView.get` (views.py lines
105-121): `hget(device_id, "start_location")`; on `None`, fetch the dataset,
filter to the device, sort ascending by `time_stamp` and take the first
row's coordinates. A `None` dataset, a non-integer `device_id`, or an empty
per-device selection each raise (`none` here), giving the 500 response. -/
def startEndStartLoc (c : Cache) (fetch : Option (List Sample)) (d : String) :
    Option StartLoc :=
  match lookupField (c d) "start_location" with
  | some s => some (.fromCache s)
  | none =>
      match fetch, pyInt d with
      | some df, some n =>
          match firstMinByTs (df.filter (fun s => s.device_fk_id == n)) with
          | some row => some (.computed row.latitude row.longitude)
          | none => none
      | _, _ => none

/-- StartEndLocationAPIView.get (views.py lines 93-159): compute the start
location, then `hgetall(device_id)` and `float(...)` on its `latitude` and
`longitude` fields — a missing field raises `KeyError` and a non-numeric
value raises `ValueError`, both giving the 500 response. -/
def startEnd (c : Cache) (fetch : Option (List Sample)) (d : String) : SEResult :=
  match startEndStartLoc c fetch d with
  | none => .serverError
  | some st =>
      match lookupField (c d) "latitude", lookupField (c d) "longitude" with
      | some la, some lo =>
          if isFloatLit la && isFloatLit lo then .ok d st la lo else .serverError
      | _, _ => .serverError

/-- Request body of `LocationPointsAPIView.post`: the four time-bound fields,
each absent (`none`) or present with a string value. -/
structure RPRequest where
  start_date : Option String
  start_time : Option String
  end_date : Option String
  end_time : Option String
deriving DecidableEq, Repr

/-- Python falsiness of an extracted request field (views.py lines 215-234):
the field was absent (`None`) or present but the empty string. -/
def falsy : Option String → Bool
  | none => true
  | some s => s == ""

/-- Missing-field collection of views.py lines 224-234, in source order. -/
def missingFields (r : RPRequest) : List String :=
  (if falsy r.start_date then ["start_date"] else []) ++
  (if falsy r.start_time then ["start_time"] else []) ++
  (if falsy r.end_date then ["end_date"] else []) ++
  (if falsy r.end_time then ["end_time"] else [])

/-- Projection of a row to the response shape (views.py lines 271-278). -/
structure Point where
  latitude : String
  longitude : String
  time_stamp : String
deriving DecidableEq, Repr

def project (s : Sample) : Point := ⟨s.latitude, s.longitude, s.time_stamp⟩

/-- Range Query Evaluator (views.py lines 261-265): boolean-mask filter of the
dataset on `device_fk_id == int(device_id)` and the inclusive lexical window
`start_datetime_str <= time_stamp <= end_datetime_str`, preserving row
order. -/
def rangeFilter (df : List Sample) (n : Int) (a b : String) : List Sample :=
  df.filter (fun s => s.device_fk_id == n && strLe a s.time_stamp && strLe s.time_stamp b)

/-- Outcome of `LocationPointsAPIView.post` (views.py lines 178-287).
`badRequest` records the `status_code` field its body carries through
`api_response` — views.py line 240 passes 200 there even though the HTTP
status is 400 — together with the enumerated missing fields. Any exception in
`get_location_points_data` other than a `KeyError` (which cannot arise from
the four guarded field reads) yields the 500 response. -/
inductive RPResult where
  | badRequest (bodyStatus : Nat) (missing : List String)
  | ok (data : List Point)
  | serverError
deriving DecidableEq, Repr

/-- HTTP status attached to each `LocationPointsAPIView` outcome
(views.py lines 243, 286 and 210). -/
def RPResult.httpStatus : RPResult → Nat
  | .badRequest _ _ => 400
  | .ok _ => 200
  | .serverError => 500

/-- LocationPointsAPIView.get_location_points_data together with the
`try`/`except` of `post` (views.py lines 178-287). Source order: extract and
falsiness-check the four fields; on any missing field return the 400
response; otherwise read the dataset, build `f"{date}T{time}Z"` bounds, parse
both with `strptime` (failure raises `ValueError` → 500), then filter — a
`None` dataset (S3 failure) or a non-integer `device_id` raise at the filter
(→ 500). The unused `filtered_df1` of line 258 has no effect and is not
modelled. A `None` dataset only raises after `strptime`, so parse failure
takes precedence over fetch failure, as in the source. -/
def get_location_points_data (fetch : Option (List Sample)) (d : String)
    (r : RPRequest) : RPResult :=
  if missingFields r ≠ [] then .badRequest 200 (missingFields r)
  else
    match r.start_date, r.start_time, r.end_date, r.end_time with
    | some sd, some st, some ed, some et =>
        let a := sd ++ "T" ++ st ++ "Z"
        let b := ed ++ "T" ++ et ++ "Z"
        if strptimeOk a && strptimeOk b then
          match fetch, pyInt d with
          | some df, some n => .ok ((rangeFilter df n a b).map project)
          | _, _ => .serverError
        else .serverError
    | _, _, _, _ => .serverError

/-- Request-field normalization used to state that a present-but-empty field
behaves exactly like an absent one: rewrite `some ""` to `none` and keep
everything else. -/
def normalizeField : Option String → Option String
  | none => none
  | some s => if s = "" then none else some s

def normalizeReq (r : RPRequest) : RPRequest :=
  ⟨normalizeField r.start_date, normalizeField r.start_time,
    normalizeField r.end_date, normalizeField r.end_time⟩

/-- Last write in the run that targets redis key `k`: the last row of `rs`
whose stringified device id is `k`. -/
def lastRecFor (k : String) : List Sample → Option Sample
  | [] => none
  | r :: t =>
      match lastRecFor k t with
      | some r' => some r'
      | none => if toString r.device_fk_id = k then some r else none

/-- Cache with no entries. -/
def emptyCache : Cache := fun _ => []

/-- Scenario dataset of spec section 8, Scenario 1: two samples for device 1,
one for device 2. -/
def exSamples : List Sample :=
  [⟨1, "19.0", "72.8", "2024-01-01T00:00:00Z"⟩,
   ⟨1, "19.1", "72.9", "2024-01-02T00:00:00Z"⟩,
   ⟨2, "18.5", "73.8", "2024-01-01T00:00:00Z"⟩]

/-- Two-device batch used to exercise the populator write loop. -/
def exRawBatch : List RawSample :=
  [⟨1, "10.0", "20.0", some "2024-01-01T00:00:00Z"⟩,
   ⟨2, "30.0", "40.0", some "2024-01-01T00:00:00Z"⟩]

/-- Fault model in which exactly device 1's redis write raises. -/
def failDeviceOne : Int → Bool := fun d => d == 1

/-- Batch in which device 1 has one dated sample and one sample with a
missing timestamp cell. -/
def exRawMissingTs : List RawSample :=
  [⟨1, "1.0", "2.0", some "2024-01-01T00:00:00Z"⟩,
   ⟨1, "3.0", "4.0", none⟩]

/-- Scenario dataset of spec section 8, Scenario 3: device 1 with one sample
inside and one outside the queried window. -/
def exRangeSamples : List Sample :=
  [⟨1, "19.0", "72.8", "2024-01-01T06:00:00Z"⟩,
   ⟨1, "19.1", "72.9", "2024-01-02T00:00:00Z"⟩]

/-- One-sample dataset for device 5, for the start-end fallback path. -/
def exStartEndSamples : List Sample :=
  [⟨5, "1.5", "2.5", "2024-01-01T00:00:00Z"⟩]

/-- Cache entry for device 5 that carries an explicit `start_location`
field. -/
def cacheWithStart : Cache := fun k =>
  if k = "5" then
    [("start_location", "raw"), ("latitude", "1.0"), ("longitude", "2.0")]
  else []

/-- Populated cache entry for device 7. -/
def cacheHit : Cache := fun k =>
  if k = "7" then
    [("latitude", "1.0"), ("longitude", "2.0"), ("time_stamp", "2024-01-02T00:00:00Z")]
  else []

/-- Request whose four fields are present and nonempty but whose end bound
does not parse as a timestamp. -/
def reqUnparsable : RPRequest :=
  ⟨some "2024-01-01", some "00:00:00", some "2024-01-02", some "garbage"⟩

/-- Request missing `end_time` (spec Scenario 4). -/
def reqMissingEndTime : RPRequest :=
  ⟨some "2024-01-01", some "00:00:00", some "2024-01-02", none⟩

/-- Request whose `end_time` is present but the empty string. -/
def reqEmptyEndTime : RPRequest :=
  ⟨some "2024-01-01", some "00:00:00", some "2024-01-02", some ""⟩

theorem strLt_iff {a b : String} : strLt a b = true ↔ a < b := by
  simp [strLt, String.lt_iff_toList_lt]

theorem strLt_false_iff {a b : String} : strLt a b = false ↔ b ≤ a := by
  rw [← Bool.not_eq_true, strLt_iff]
  exact not_lt

theorem strLe_iff {a b : String} : strLe a b = true ↔ a ≤ b := by
  simp [strLe, String.le_iff_toList_le]

theorem selectLatest_mem (b : Sample) (l : List Sample) :
    selectLatest b l ∈ b :: l := by
  induction l generalizing b with
  | nil => simp [selectLatest]
  | cons s rest ih =>
      simp only [selectLatest]
      split
      · have := ih s
        simp only [List.mem_cons] at this ⊢
        tauto
      · have := ih b
        simp only [List.mem_cons] at this ⊢
        tauto

theorem selectLatest_le (b : Sample) (l : List Sample) :
    b.time_stamp ≤ (selectLatest b l).time_stamp ∧
      ∀ s ∈ l, s.time_stamp ≤ (selectLatest b l).time_stamp := by
  induction l generalizing b with
  | nil => simp [selectLatest]
  | cons s rest ih =>
      simp only [selectLatest]
      split
      case isTrue h =>
        have hb : b.time_stamp < s.time_stamp := strLt_iff.mp h
        obtain ⟨h1, h2⟩ := ih s
        refine ⟨le_of_lt (lt_of_lt_of_le hb h1), ?_⟩
        intro x hx
        rcases List.mem_cons.mp hx with hx | hx
        · rw [hx]; exact h1
        · exact h2 x hx
      case isFalse h =>
        have hb : s.time_stamp ≤ b.time_stamp :=
          strLt_false_iff.mp (Bool.not_eq_true _ ▸ h)
        obtain ⟨h1, h2⟩ := ih b
        refine ⟨h1, ?_⟩
        intro x hx
        rcases List.mem_cons.mp hx with hx | hx
        · rw [hx]; exact le_trans hb h1
        · exact h2 x hx

theorem latestFor_spec {d : Int} {ss : List Sample} {r : Sample}
    (h : latestFor d ss = some r) :
    r ∈ ss ∧ r.device_fk_id = d ∧
      ∀ s ∈ ss, s.device_fk_id = d → s.time_stamp ≤ r.time_stamp := by
  unfold latestFor at h
  rcases hq : ss.filter (fun s => s.device_fk_id == d) with _ | ⟨hd, tl⟩
  · rw [hq] at h; exact absurd h (by simp)
  · rw [hq] at h
    have hr : r = selectLatest hd tl := (Option.some.injEq _ _ ▸ h).symm
    have hmem : r ∈ hd :: tl := hr ▸ selectLatest_mem hd tl
    have hfil : r ∈ ss.filter (fun s => s.device_fk_id == d) := hq ▸ hmem
    have hin := List.mem_filter.mp hfil
    refine ⟨hin.1, by simpa using hin.2, ?_⟩
    intro s hs hsd
    have hsf : s ∈ ss.filter (fun s => s.device_fk_id == d) :=
      List.mem_filter.mpr ⟨hs, by simp [hsd]⟩
    rw [hq] at hsf
    obtain ⟨h1, h2⟩ := selectLatest_le hd tl
    rcases List.mem_cons.mp hsf with hx | hx
    · rw [hx, hr]; exact h1
    · rw [hr]; exact h2 s hx

theorem latestFor_isSome {d : Int} {ss : List Sample}
    (h : ∃ s ∈ ss, s.device_fk_id = d) : ∃ r, latestFor d ss = some r := by
  obtain ⟨s, hs, hd⟩ := h
  have hmem : s ∈ ss.filter (fun s => s.device_fk_id == d) :=
    List.mem_filter.mpr ⟨hs, by simp [hd]⟩
  unfold latestFor
  rcases hq : ss.filter (fun s => s.device_fk_id == d) with _ | ⟨hd', tl⟩
  · rw [hq] at hmem; exact absurd hmem (by simp)
  · rw [hq]; exact ⟨selectLatest hd' tl, rfl⟩

theorem mem_deviceIds {ss : List Sample} {d : Int} :
    d ∈ deviceIds ss ↔ ∃ s ∈ ss, s.device_fk_id = d := by
  simp [deviceIds, List.mem_insertionSort, List.mem_dedup, List.mem_map]

theorem nodup_deviceIds (ss : List Sample) : (deviceIds ss).Nodup :=
  ((List.perm_insertionSort _ _).nodup_iff).mpr (List.nodup_dedup _)

theorem mem_reduce {ss : List Sample} {r : Sample} (h : r ∈ reduce ss) :
    r ∈ ss ∧
      ∀ s ∈ ss, s.device_fk_id = r.device_fk_id → s.time_stamp ≤ r.time_stamp := by
  unfold reduce at h
  obtain ⟨d, _, hl⟩ := List.mem_filterMap.mp h
  obtain ⟨h1, h2, h3⟩ := latestFor_spec hl
  exact ⟨h1, fun s hs hsd => h3 s hs (h2 ▸ hsd)⟩

theorem reduce_exists {ss : List Sample} {d : Int}
    (h : ∃ s ∈ ss, s.device_fk_id = d) : ∃ r ∈ reduce ss, r.device_fk_id = d := by
  have hd : d ∈ deviceIds ss := mem_deviceIds.mpr h
  obtain ⟨r, hr⟩ := latestFor_isSome h
  exact ⟨r, List.mem_filterMap.mpr ⟨d, hd, hr⟩, (latestFor_spec hr).2.1⟩

theorem filterMap_latest_keys_nodup {l : List Int} {ss : List Sample}
    (hl : l.Nodup) :
    ((l.filterMap (fun d => latestFor d ss)).map (fun r => r.device_fk_id)).Nodup := by
  induction l with
  | nil => simp
  | cons d t ih =>
      obtain ⟨hd, ht⟩ := List.nodup_cons.mp hl
      simp only [List.filterMap_cons]
      cases hq : latestFor d ss with
      | none => exact ih ht
      | some r =>
          simp only [List.map_cons, List.nodup_cons]
          refine ⟨?_, ih ht⟩
          intro hmem
          obtain ⟨r', hr', hkey⟩ := List.mem_map.mp hmem
          obtain ⟨d', hd', hl'⟩ := List.mem_filterMap.mp hr'
          have h1 : r'.device_fk_id = d' := (latestFor_spec hl').2.1
          have h2 : r.device_fk_id = d := (latestFor_spec hq).2.1
          have hdd : d' = d := by rw [← h1, hkey, h2]
          exact hd (hdd ▸ hd')

theorem reduce_keys_nodup (ss : List Sample) :
    ((reduce ss).map (fun r => r.device_fk_id)).Nodup :=
  filterMap_latest_keys_nodup (nodup_deviceIds ss)

theorem lookup_setField_same (m : List (String × String)) (k v : String) :
    lookupField (setField m k v) k = some v := by
  induction m with
  | nil => simp [setField, lookupField]
  | cons p t ih =>
      cases p with
      | mk k' v' =>
          simp only [setField]
          split
          · simp [lookupField]
          case isFalse h => simp [lookupField, h, ih]

theorem lookup_setField_other (m : List (String × String)) {k k' : String}
    (h : k' ≠ k) (v : String) :
    lookupField (setField m k' v) k = lookupField m k := by
  induction m with
  | nil => simp [setField, lookupField, h]
  | cons p t ih =>
      cases p with
      | mk k0 v0 =>
          simp only [setField]
          split
          case isTrue h0 => simp [lookupField, h, h0 ▸ h]
          case isFalse h0 => simp [lookupField, ih]

theorem setField_lookup_eq {m : List (String × String)} {k v : String}
    (h : lookupField m k = some v) : setField m k v = m := by
  induction m with
  | nil => simp [lookupField] at h
  | cons p t ih =>
      obtain ⟨k0, v0⟩ := p
      by_cases h0 : k0 = k
      · subst h0
        simp only [lookupField, if_pos rfl] at h
        injection h with hv
        simp [setField, hv]
      · simp only [lookupField, if_neg h0] at h
        simp [setField, h0, ih h]

theorem setField_setField_same (m : List (String × String)) (k v w : String) :
    setField (setField m k v) k w = setField m k w := by
  induction m with
  | nil => simp [setField]
  | cons p t ih =>
      cases p with
      | mk k0 v0 =>
          simp only [setField]
          split
          · simp [setField]
          case isFalse h => simp [setField, h, ih]

theorem mem_keys_setField_self (m : List (String × String)) (k v : String) :
    k ∈ (setField m k v).map Prod.fst := by
  induction m with
  | nil => simp [setField]
  | cons p t ih =>
      cases p with
      | mk k0 v0 =>
          simp only [setField]
          split
          · simp
          · simpa using Or.inr ih

theorem mem_keys_setField_of {m : List (String × String)} {k : String}
    (h : k ∈ m.map Prod.fst) (k2 w : String) :
    k ∈ (setField m k2 w).map Prod.fst := by
  induction m with
  | nil => simp at h
  | cons p t ih =>
      cases p with
      | mk k0 v0 =>
          simp only [List.map_cons, List.mem_cons] at h
          simp only [setField]
          split
          case isTrue h0 =>
              rcases h with h | h
              · simp [← h0, h]
              · simpa using Or.inr h
          case isFalse h0 =>
              rcases h with h | h
              · simp [h]
              · simpa using Or.inr (ih h)

theorem setField_comm_of_mem {m : List (String × String)} {k k2 : String}
    (hne : k ≠ k2) (hmem : k ∈ m.map Prod.fst) (w v' : String) :
    setField (setField m k2 w) k v' = setField (setField m k v') k2 w := by
  induction m with
  | nil => simp at hmem
  | cons p t ih =>
      obtain ⟨k0, v0⟩ := p
      simp only [List.map_cons, List.mem_cons] at hmem
      by_cases h2 : k0 = k2
      · subst h2
        simp [setField, Ne.symm hne]
      · by_cases h0 : k0 = k
        · subst h0
          simp [setField, h2, hne]
        · have hm : k ∈ t.map Prod.fst := by
            rcases hmem with h | h
            · exact absurd h.symm h0
            · exact h
          simp [setField, h0, h2, ih hm]

theorem setField_applySF (t : List (String × String)) {k : String}
    (hnot : k ∉ t.map Prod.fst) (v' : String) (m : List (String × String))
    (hm : k ∈ m.map Prod.fst) :
    setField (applySF m t) k v' = applySF (setField m k v') t := by
  induction t generalizing m with
  | nil => rfl
  | cons p t2 ih =>
      obtain ⟨k2, w⟩ := p
      simp only [List.map_cons, List.mem_cons, not_or] at hnot
      obtain ⟨hne, hnot2⟩ := hnot
      show setField (applySF (setField m k2 w) t2) k v' =
        applySF (setField (setField m k v') k2 w) t2
      rw [ih hnot2 (setField m k2 w) (mem_keys_setField_of hm k2 w)]
      rw [setField_comm_of_mem hne hm w v']

theorem applySF_overwrite (l : List (String × String)) :
    ∀ l' : List (String × String), l.map Prod.fst = l'.map Prod.fst →
      (l.map Prod.fst).Nodup →
      ∀ m, applySF (applySF m l) l' = applySF m l' := by
  induction l with
  | nil =>
      intro l' hkeys _ m
      cases l' with
      | nil => rfl
      | cons p t => simp at hkeys
  | cons p t ih =>
      intro l' hkeys hnd m
      cases l' with
      | nil => simp at hkeys
      | cons p' t' =>
          obtain ⟨k, v⟩ := p
          obtain ⟨k', v'⟩ := p'
          simp only [List.map_cons, List.cons.injEq] at hkeys
          obtain ⟨hk, hkeys2⟩ := hkeys
          subst hk
          simp only [List.map_cons, List.nodup_cons] at hnd
          obtain ⟨hknot, hndt⟩ := hnd
          show applySF (setField (applySF (setField m k v) t) k v') t' =
            applySF (setField m k v') t'
          rw [setField_applySF t hknot v' (setField m k v)
            (mem_keys_setField_self m k v)]
          rw [setField_setField_same]
          exact ih t' hkeys2 hndt (setField m k v')

theorem entryData_keys (r : Sample) :
    (entryData r).map Prod.fst = ["latitude", "longitude", "time_stamp"] := rfl

theorem entryData_keys_nodup (r : Sample) :
    ((entryData r).map Prod.fst).Nodup := by
  rw [entryData_keys]
  decide

theorem populateList_apply (rs : List Sample) (c : Cache) (k : String) :
    populateList c rs k =
      match lastRecFor k rs with
      | none => c k
      | some r => applySF (c k) (entryData r) := by
  induction rs generalizing c with
  | nil => rfl
  | cons r t ih =>
      show populateList (hmset c (toString r.device_fk_id) (entryData r)) t k = _
      rw [ih]
      simp only [lastRecFor]
      cases hq : lastRecFor k t with
      | some r' =>
          simp only [hmset]
          by_cases hk : k = toString r.device_fk_id
          · rw [if_pos hk]
            exact applySF_overwrite (entryData r) (entryData r') rfl
              (entryData_keys_nodup r) (c k)
          · rw [if_neg hk]
      | none =>
          simp only [hmset]
          by_cases hk : k = toString r.device_fk_id
          · rw [if_pos hk, if_pos hk.symm]
          · rw [if_neg hk, if_neg (fun h => hk h.symm)]

theorem writeLoop_nofail (rs : List Sample) (c : Cache) :
    writeLoop (fun _ => false) c rs = (populateList c rs, true) := by
  induction rs generalizing c with
  | nil => rfl
  | cons r t ih =>
      show writeLoop (fun _ => false) (hmset c _ _) t = _
      exact ih _

theorem populate_run (c : Cache) (df : List RawSample) :
    populate c df = populateList c (reduce (df.map astypeStr)) := by
  show (writeLoop (fun _ => false) c (reduce (df.map astypeStr))).1 = _
  rw [writeLoop_nofail]

theorem selectMin_mem (b : Sample) (l : List Sample) : selectMin b l ∈ b :: l := by
  induction l generalizing b with
  | nil => simp [selectMin]
  | cons s rest ih =>
      simp only [selectMin]
      split
      · have := ih s
        simp only [List.mem_cons] at this ⊢
        tauto
      · have := ih b
        simp only [List.mem_cons] at this ⊢
        tauto

theorem selectMin_le (b : Sample) (l : List Sample) :
    (selectMin b l).time_stamp ≤ b.time_stamp ∧
      ∀ s ∈ l, (selectMin b l).time_stamp ≤ s.time_stamp := by
  induction l generalizing b with
  | nil => simp [selectMin]
  | cons s rest ih =>
      simp only [selectMin]
      split
      case isTrue h =>
        have hb : s.time_stamp < b.time_stamp := strLt_iff.mp h
        obtain ⟨h1, h2⟩ := ih s
        refine ⟨le_of_lt (lt_of_le_of_lt h1 hb), ?_⟩
        intro x hx
        rcases List.mem_cons.mp hx with hx | hx
        · rw [hx]; exact h1
        · exact h2 x hx
      case isFalse h =>
        have hb : b.time_stamp ≤ s.time_stamp :=
          strLt_false_iff.mp (Bool.not_eq_true _ ▸ h)
        obtain ⟨h1, h2⟩ := ih b
        refine ⟨h1, ?_⟩
        intro x hx
        rcases List.mem_cons.mp hx with hx | hx
        · rw [hx]; exact le_trans h1 hb
        · exact h2 x hx

theorem firstMin_filter_spec {df : List Sample} {n : Int} {row : Sample}
    (h : firstMinByTs (df.filter (fun s => s.device_fk_id == n)) = some row) :
    row ∈ df ∧ row.device_fk_id = n ∧
      ∀ s ∈ df, s.device_fk_id = n → row.time_stamp ≤ s.time_stamp := by
  unfold firstMinByTs at h
  rcases hq : df.filter (fun s => s.device_fk_id == n) with _ | ⟨hd, tl⟩
  · rw [hq] at h; exact absurd h (by simp)
  · rw [hq] at h
    have hr : row = selectMin hd tl := (Option.some.injEq _ _ ▸ h).symm
    have hmem : row ∈ hd :: tl := hr ▸ selectMin_mem hd tl
    have hfil : row ∈ df.filter (fun s => s.device_fk_id == n) := hq ▸ hmem
    have hin := List.mem_filter.mp hfil
    refine ⟨hin.1, by simpa using hin.2, ?_⟩
    intro s hs hsd
    have hsf : s ∈ df.filter (fun s => s.device_fk_id == n) :=
      List.mem_filter.mpr ⟨hs, by simp [hsd]⟩
    rw [hq] at hsf
    obtain ⟨h1, h2⟩ := selectMin_le hd tl
    rcases List.mem_cons.mp hsf with hx | hx
    · rw [hx, hr]; exact h1
    · rw [hr]; exact h2 s hx

theorem mem_missing_iff (r : RPRequest) :
    ("start_date" ∈ missingFields r ↔ falsy r.start_date = true)
    ∧ ("start_time" ∈ missingFields r ↔ falsy r.start_time = true)
    ∧ ("end_date" ∈ missingFields r ↔ falsy r.end_date = true)
    ∧ ("end_time" ∈ missingFields r ↔ falsy r.end_time = true) := by
  unfold missingFields
  cases falsy r.start_date <;> cases falsy r.start_time <;>
    cases falsy r.end_date <;> cases falsy r.end_time <;> decide

theorem falsy_normalizeField (o : Option String) :
    falsy (normalizeField o) = falsy o := by
  cases o with
  | none => rfl
  | some s =>
      by_cases h : s = ""
      · simp [normalizeField, falsy, h]
      · simp [normalizeField, falsy, h]

theorem missingFields_normalizeReq (r : RPRequest) :
    missingFields (normalizeReq r) = missingFields r := by
  simp [missingFields, normalizeReq, falsy_normalizeField]

theorem normalizeField_of_falsy_false {o : Option String}
    (h : falsy o = false) : normalizeField o = o := by
  cases o with
  | none => simp [falsy] at h
  | some s =>
      simp only [falsy, beq_eq_false_iff_ne, ne_eq] at h
      simp [normalizeField, h]

theorem falsy_false_of_missing_nil {r : RPRequest} (h : missingFields r = []) :
    falsy r.start_date = false ∧ falsy r.start_time = false ∧
      falsy r.end_date = false ∧ falsy r.end_time = false := by
  obtain ⟨h1, h2, h3, h4⟩ := mem_missing_iff r
  refine ⟨?_, ?_, ?_, ?_⟩
  · rw [← Bool.not_eq_true]
    exact fun hf => List.ne_nil_of_mem (h1.mpr hf) h
  · rw [← Bool.not_eq_true]
    exact fun hf => List.ne_nil_of_mem (h2.mpr hf) h
  · rw [← Bool.not_eq_true]
    exact fun hf => List.ne_nil_of_mem (h3.mpr hf) h
  · rw [← Bool.not_eq_true]
    exact fun hf => List.ne_nil_of_mem (h4.mpr hf) h

theorem writeLoop_firstFailure (wf : Int → Bool) (rs : List Sample) (c : Cache) :
    writeLoop wf c rs =
      (populateList c (rs.takeWhile (fun r => !wf r.device_fk_id)),
        rs.all (fun r => !wf r.device_fk_id)) := by
  induction rs generalizing c with
  | nil => rfl
  | cons r t ih =>
      cases hw : wf r.device_fk_id with
      | true => simp [writeLoop, hw, List.takeWhile_cons, populateList]
      | false =>
          simp only [writeLoop, hw, List.takeWhile_cons, List.all_cons,
            Bool.not_false, Bool.true_and, if_true]
          rw [ih]
          rfl

/-- C1: for every finite input sequence of samples, the Latest-Record Reducer
produces exactly one record per distinct device id present in the input
(device ids of the output are duplicate-free, and a device id occurs in the
output iff it occurs in the input), each output record is one of the input
samples, and its timestamp is lexically greater than or equal to the
timestamp of every input sample with the same device id. -/
theorem claim_C1_latest_reducer (ss : List Sample) :
    ((reduce ss).map (fun r => r.device_fk_id)).Nodup
    ∧ (∀ d : Int, (∃ s ∈ ss, s.device_fk_id = d) ↔ ∃ r ∈ reduce ss, r.device_fk_id = d)
    ∧ ∀ r ∈ reduce ss, r ∈ ss ∧
        ∀ s ∈ ss, s.device_fk_id = r.device_fk_id → s.time_stamp ≤ r.time_stamp := by
  refine ⟨reduce_keys_nodup ss, fun d => ⟨reduce_exists, ?_⟩, fun r hr => mem_reduce hr⟩
  rintro ⟨r, hr, hd⟩
  exact ⟨r, (mem_reduce hr).1, hd⟩

/-- Witness for C1 at the Scenario 1 dataset. -/
theorem claim_C1_witness :
    ((reduce exSamples).map (fun r => r.device_fk_id)).Nodup
    ∧ (∀ d : Int, (∃ s ∈ exSamples, s.device_fk_id = d) ↔
        ∃ r ∈ reduce exSamples, r.device_fk_id = d)
    ∧ ∀ r ∈ reduce exSamples, r ∈ exSamples ∧
        ∀ s ∈ exSamples, s.device_fk_id = r.device_fk_id →
          s.time_stamp ≤ r.time_stamp :=
  claim_C1_latest_reducer exSamples

/-- C2: the Range Query Evaluator returns exactly the samples matching the
requested device whose timestamp lies within the inclusive lexical window —
every returned sample matches (soundness), every matching sample is returned
(completeness), the result is a sublist of the input so relative input order
is preserved, and when nothing matches the result is the empty list. -/
theorem claim_C2_range_query (df : List Sample) (n : Int) (a b : String) :
    (∀ s ∈ rangeFilter df n a b,
        s.device_fk_id = n ∧ a ≤ s.time_stamp ∧ s.time_stamp ≤ b)
    ∧ (∀ s ∈ df, s.device_fk_id = n → a ≤ s.time_stamp → s.time_stamp ≤ b →
        s ∈ rangeFilter df n a b)
    ∧ (rangeFilter df n a b).Sublist df
    ∧ ((∀ s ∈ df, ¬(s.device_fk_id = n ∧ a ≤ s.time_stamp ∧ s.time_stamp ≤ b)) →
        rangeFilter df n a b = []) := by
  have sound : ∀ s ∈ rangeFilter df n a b,
      s.device_fk_id = n ∧ a ≤ s.time_stamp ∧ s.time_stamp ≤ b := by
    intro s hs
    have hp := (List.mem_filter.mp hs).2
    simp only [Bool.and_eq_true, beq_iff_eq] at hp
    exact ⟨hp.1.1, strLe_iff.mp hp.1.2, strLe_iff.mp hp.2⟩
  have compl : ∀ s ∈ df, s.device_fk_id = n → a ≤ s.time_stamp →
      s.time_stamp ≤ b → s ∈ rangeFilter df n a b := by
    intro s hs h1 h2 h3
    refine List.mem_filter.mpr ⟨hs, ?_⟩
    simp only [Bool.and_eq_true, beq_iff_eq]
    exact ⟨⟨h1, strLe_iff.mpr h2⟩, strLe_iff.mpr h3⟩
  refine ⟨sound, compl, List.filter_sublist _, ?_⟩
  intro hall
  cases hq : rangeFilter df n a b with
  | nil => rfl
  | cons x t =>
      have hx : x ∈ rangeFilter df n a b := by
        rw [hq]; exact List.mem_cons_self x t
      exact absurd (sound x hx) (hall x (List.mem_of_mem_filter hx))

/-- Witness for C2 at the Scenario 3 dataset: the in-window sample is
returned. -/
theorem claim_C2_witness :
    (⟨1, "19.0", "72.8", "2024-01-01T06:00:00Z"⟩ : Sample) ∈
      rangeFilter exRangeSamples 1 "2024-01-01T00:00:00Z" "2024-01-01T12:00:00Z" :=
  (claim_C2_range_query exRangeSamples 1 "2024-01-01T00:00:00Z"
      "2024-01-01T12:00:00Z").2.1
    ⟨1, "19.0", "72.8", "2024-01-01T06:00:00Z"⟩ (by decide) rfl
    (strLe_iff.mp (by decide)) (strLe_iff.mp (by decide))

/-- C3: when the Dataset Source fetch fails (`read_csv_from_s3` returns
`None`), the populator run aborts reporting failure and the cache is left
exactly as it was — no entry is written. -/
theorem claim_C3_source_unavailable (c : Cache) (wf : Int → Bool) :
    (handle c none wf).1 = c ∧ (handle c none wf).2 = false :=
  ⟨rfl, rfl⟩

/-- Counterexample to C4: with the batch `exRawBatch` (devices 1 and 2) and a
fault making only device 1's write raise, device 2 is present in the input
and its own write would succeed, yet after the run device 2 has no cache
entry — the run did not continue past the failure, contradicting the claim
that remaining devices are still written. -/
theorem claim_C4_counterexample :
    (∃ s ∈ exRawBatch, s.device_fk_id = 2)
    ∧ failDeviceOne 2 = false
    ∧ (handle emptyCache (some exRawBatch) failDeviceOne).1 "2" = []
    ∧ (handle emptyCache (some exRawBatch) failDeviceOne).2 = false := by
  refine ⟨⟨⟨2, "30.0", "40.0", some "2024-01-01T00:00:00Z"⟩, by decide, rfl⟩,
    rfl, ?_, ?_⟩
  · decide
  · decide

/-- C4 corrected: a failing per-device cache write aborts the run at that
device — the devices before the first failure (in ascending device-id order)
keep their written entries, the failing device and every device after it are
not written, and the run reports a single failure; it does not skip the
failing device, continue, or aggregate failures. -/
theorem claim_C4_write_failure_aborts (c : Cache) (df : List RawSample)
    (wf : Int → Bool) :
    handle c (some df) wf =
      (populateList c
          ((reduce (df.map astypeStr)).takeWhile (fun r => !wf r.device_fk_id)),
        (reduce (df.map astypeStr)).all (fun r => !wf r.device_fk_id)) := by
  show writeLoop wf c (reduce (df.map astypeStr)) = _
  exact writeLoop_firstFailure wf _ c

/-- Counterexample to C5: in `exRawMissingTs` device 1 has a dated sample and
a sample whose timestamp cell is missing; the missing-timestamp sample is not
excluded — after the `astype(str)` coercion it carries timestamp "nan", which
sorts lexically after the real date, so it becomes the device's
LatestRecord. -/
theorem claim_C5_counterexample :
    (⟨1, "3.0", "4.0", none⟩ : RawSample) ∈ exRawMissingTs
    ∧ (⟨1, "3.0", "4.0", (none : Option String)⟩ : RawSample).time_stamp = none
    ∧ reduce (exRawMissingTs.map astypeStr) = [⟨1, "3.0", "4.0", "nan"⟩] := by
  refine ⟨by decide, rfl, by decide⟩

/-- C5 corrected: samples with a missing timestamp are not excluded from
grouping and nothing is reported as skipped — the coercion turns a missing
cell into the literal string "nan" and the sample participates like any
other (every device with at least one sample, dated or not, still yields a
LatestRecord); since "nan" compares lexically greater than zero-padded
timestamps, such a sample can itself become the LatestRecord. The operation
does not fail on such samples. -/
theorem claim_C5_missing_ts_participate :
    (∀ r : RawSample, (astypeStr r).time_stamp = r.time_stamp.getD "nan")
    ∧ ∀ (df : List RawSample) (d : Int), (∃ s ∈ df, s.device_fk_id = d) →
        ∃ rec ∈ reduce (df.map astypeStr), rec.device_fk_id = d := by
  refine ⟨fun r => rfl, fun df d h => ?_⟩
  obtain ⟨s, hs, hd⟩ := h
  exact reduce_exists ⟨astypeStr s, List.mem_map_of_mem astypeStr hs, hd⟩

/-- Witness for the corrected C5: device 1 of `exRawMissingTs` still yields a
LatestRecord. -/
theorem claim_C5_witness :
    ∃ rec ∈ reduce (exRawMissingTs.map astypeStr), rec.device_fk_id = 1 :=
  claim_C5_missing_ts_participate.2 exRawMissingTs 1
    ⟨⟨1, "1.0", "2.0", some "2024-01-01T00:00:00Z"⟩, by decide, rfl⟩

/-- C9: running the Cache Populator a second time over the same unchanged
dataset leaves the cache exactly as the first run left it (the second run's
writes are the same device/field-map pairs, computed from the dataset alone,
and re-applying them changes nothing). -/
theorem claim_C9_idempotent (c : Cache) (df : List RawSample) :
    populate (populate c df) df = populate c df := by
  rw [populate_run c df, populate_run]
  funext k
  rw [populateList_apply (reduce (df.map astypeStr)) (populateList c _) k,
    populateList_apply (reduce (df.map astypeStr)) c k]
  cases hq : lastRecFor k (reduce (df.map astypeStr)) with
  | none => rfl
  | some r =>
      exact applySF_overwrite (entryData r) (entryData r) rfl
        (entryData_keys_nodup r) (c k)

/-- C6: the latest-info view answers from the Position Cache alone — its
result does not depend on the Dataset Source at all; a populated entry is
returned with HTTP 200 (with `device_id` added to the field map) and an
absent entry yields the 404 not-found response, never a recomputation. -/
theorem claim_C6_latest_cache_only (c : Cache) (d : String)
    (f f' : Option (List Sample)) :
    latestDeviceInfo c f d = latestDeviceInfo c f' d
    ∧ (c d = [] → latestDeviceInfo c f d = .notFound
        ∧ (latestDeviceInfo c f d).status = 404)
    ∧ (c d ≠ [] → latestDeviceInfo c f d = .ok (setField (c d) "device_id" d)
        ∧ (latestDeviceInfo c f d).status = 200) := by
  refine ⟨rfl, fun h => ?_, fun h => ?_⟩
  · exact ⟨by simp [latestDeviceInfo, h],
      by simp [latestDeviceInfo, h, LatestResult.status]⟩
  · have hne : (c d).isEmpty = false := by
      cases hcd : c d with
      | nil => exact absurd hcd h
      | cons x t => rfl
    exact ⟨by simp [latestDeviceInfo, hne],
      by simp [latestDeviceInfo, hne, LatestResult.status]⟩

/-- Witness for C6: an empty cache gives 404 for device 9; a populated entry
for device 7 is returned. -/
theorem claim_C6_witness :
    latestDeviceInfo emptyCache none "9" = .notFound
    ∧ latestDeviceInfo cacheHit (some exSamples) "7"
        = .ok (setField (cacheHit "7") "device_id" "7") :=
  ⟨((claim_C6_latest_cache_only emptyCache "9" none none).2.1 rfl).1,
    ((claim_C6_latest_cache_only cacheHit "7" (some exSamples) none).2.2
      (by decide)).1⟩

/-- Counterexample to C7: device 5 has no cache entry at all, the dataset
does contain samples for it, and the start-end view responds with the 500
server error (the end lookup raises `KeyError`), not with a NotFound
distinct from server failures. -/
theorem claim_C7_counterexample :
    emptyCache "5" = []
    ∧ (∃ s ∈ exStartEndSamples, s.device_fk_id = 5)
    ∧ startEnd emptyCache (some exStartEndSamples) "5" = .serverError
    ∧ (startEnd emptyCache (some exStartEndSamples) "5").status = 500 := by
  refine ⟨rfl, by decide, by decide, by decide⟩

/-- C7 corrected: the start position is the cached `start_location` value
when that field is present, and otherwise the coordinates of a
minimal-timestamp sample of the device in the full dataset; the end position
always comes from the cached entry's `latitude`/`longitude` fields, never
from the raw dataset; but when the cache entry is entirely absent the
operation fails with the 500 server error, not with a NotFound distinct
from server failures. -/
theorem claim_C7_start_end (c : Cache) (f : Option (List Sample)) (d : String) :
    (c d = [] → startEnd c f d = .serverError)
    ∧ ∀ dev st la lo, startEnd c f d = .ok dev st la lo →
        dev = d
        ∧ lookupField (c d) "latitude" = some la
        ∧ lookupField (c d) "longitude" = some lo
        ∧ match lookupField (c d) "start_location" with
          | some s => st = .fromCache s
          | none => ∃ df n row, f = some df ∧ pyInt d = some n ∧ row ∈ df
              ∧ row.device_fk_id = n
              ∧ st = .computed row.latitude row.longitude
              ∧ ∀ s' ∈ df, s'.device_fk_id = n → row.time_stamp ≤ s'.time_stamp := by
  constructor
  · intro h
    unfold startEnd
    cases hsl : startEndStartLoc c f d with
    | none => rfl
    | some st => rw [h]; rfl
  · intro dev st la lo hok
    unfold startEnd at hok
    split at hok
    · exact absurd hok (by simp)
    · rename_i st' hsl
      split at hok
      · rename_i la' lo' hla hlo
        split at hok
        · rename_i hfl
          injection hok with e1 e2 e3 e4
          subst e1
          subst e2
          subst e3
          subst e4
          refine ⟨rfl, hla, hlo, ?_⟩
          unfold startEndStartLoc at hsl
          cases hq : lookupField (c d) "start_location" with
          | some s =>
              rw [hq] at hsl
              injection hsl with hst
              exact hst.symm
          | none =>
              rw [hq] at hsl
              cases f with
              | none => exact Option.noConfusion hsl
              | some df =>
                  cases hpi : pyInt d with
                  | none =>
                      rw [hpi] at hsl
                      exact Option.noConfusion hsl
                  | some n =>
                      rw [hpi] at hsl
                      have hsl2 :
                          (match firstMinByTs
                              (df.filter (fun s => s.device_fk_id == n)) with
                            | some row =>
                                some (StartLoc.computed row.latitude row.longitude)
                            | none => none) = some st' := hsl
                      cases hfm : firstMinByTs
                          (df.filter (fun s => s.device_fk_id == n)) with
                      | none =>
                          rw [hfm] at hsl2
                          exact Option.noConfusion hsl2
                      | some row =>
                          rw [hfm] at hsl2
                          injection hsl2 with hst
                          obtain ⟨hmem, hdev, hmin⟩ := firstMin_filter_spec hfm
                          exact ⟨df, n, row, rfl, rfl, hmem, hdev,
                            hst.symm, hmin⟩
        · exact absurd hok (by simp)
      · exact absurd hok (by simp)

/-- Witness for the corrected C7: the empty-cache case yields the 500
response for device 9, and with a cached `start_location` for device 5 the
view returns it together with the cached end coordinates. -/
theorem claim_C7_witness :
    startEnd emptyCache none "9" = .serverError
    ∧ lookupField (cacheWithStart "5") "latitude" = some "1.0"
    ∧ lookupField (cacheWithStart "5") "longitude" = some "2.0" :=
  ⟨(claim_C7_start_end emptyCache none "9").1 rfl,
    (((claim_C7_start_end cacheWithStart none "5").2 "5"
        (.fromCache "raw") "1.0" "2.0" (by decide)).2.1),
    (((claim_C7_start_end cacheWithStart none "5").2 "5"
        (.fromCache "raw") "1.0" "2.0" (by decide)).2.2.1)⟩

/-- Counterexample to C8: all four fields of `reqUnparsable` are present and
nonempty but `end_time` cannot be parsed; the view responds with the 500
server error (the `ValueError` from `strptime` falls into the generic
`except`), not with a 400 validation error. -/
theorem claim_C8_counterexample :
    missingFields reqUnparsable = []
    ∧ get_location_points_data (some exRangeSamples) "1" reqUnparsable
        = .serverError
    ∧ (get_location_points_data (some exRangeSamples) "1" reqUnparsable).httpStatus
        = 500 := by
  refine ⟨by decide, by decide, by decide⟩

/-- C8 corrected: when required fields are missing (absent or falsy), the
view responds with HTTP 400 enumerating exactly the missing fields, not just
the first (the response body's own `status_code` field is 200, a quirk of
views.py line 240); but when all fields are present and a timestamp fails to
parse, the view responds with the 500 server error, not a 400 validation
error naming the invalid field. -/
theorem claim_C8_validation (f : Option (List Sample)) (d : String)
    (r : RPRequest) :
    (missingFields r ≠ [] →
        get_location_points_data f d r = .badRequest 200 (missingFields r)
        ∧ (get_location_points_data f d r).httpStatus = 400)
    ∧ ("start_date" ∈ missingFields r ↔ falsy r.start_date = true)
    ∧ ("start_time" ∈ missingFields r ↔ falsy r.start_time = true)
    ∧ ("end_date" ∈ missingFields r ↔ falsy r.end_date = true)
    ∧ ("end_time" ∈ missingFields r ↔ falsy r.end_time = true)
    ∧ ∀ sd st ed et, r = ⟨some sd, some st, some ed, some et⟩ →
        missingFields r = [] →
        (strptimeOk (sd ++ "T" ++ st ++ "Z")
          && strptimeOk (ed ++ "T" ++ et ++ "Z")) = false →
        get_location_points_data f d r = .serverError
        ∧ (get_location_points_data f d r).httpStatus = 500 := by
  obtain ⟨m1, m2, m3, m4⟩ := mem_missing_iff r
  refine ⟨fun h => ?_, m1, m2, m3, m4, ?_⟩
  · exact ⟨by simp [get_location_points_data, h],
      by simp [get_location_points_data, h, RPResult.httpStatus]⟩
  · rintro sd st ed et rfl hm hparse
    exact ⟨by simp [get_location_points_data, hm, hparse],
      by simp [get_location_points_data, hm, hparse, RPResult.httpStatus]⟩

/-- Witness for the corrected C8: the Scenario 4 request missing `end_time`
gets the 400 response naming it, and the unparsable request gets the 500
response. -/
theorem claim_C8_witness :
    get_location_points_data none "1" reqMissingEndTime
        = .badRequest 200 (missingFields reqMissingEndTime)
    ∧ get_location_points_data (some exRangeSamples) "1" reqUnparsable
        = .serverError :=
  ⟨((claim_C8_validation none "1" reqMissingEndTime).1 (by decide)).1,
    ((claim_C8_validation (some exRangeSamples) "1" reqUnparsable).2.2.2.2.2
      "2024-01-01" "00:00:00" "2024-01-02" "garbage" rfl (by decide)
      (by decide)).1⟩

/-- C10: a required field that is present but empty is treated exactly like
an absent field — replacing every `some ""` field by `none` does not change
the view's response at all, and each empty field is listed among the missing
fields with the request rejected with HTTP 400. -/
theorem claim_C10_empty_like_missing (f : Option (List Sample)) (d : String)
    (r : RPRequest) :
    get_location_points_data f d (normalizeReq r) = get_location_points_data f d r
    ∧ (r.start_date = some "" → "start_date" ∈ missingFields r
        ∧ (get_location_points_data f d r).httpStatus = 400)
    ∧ (r.start_time = some "" → "start_time" ∈ missingFields r
        ∧ (get_location_points_data f d r).httpStatus = 400)
    ∧ (r.end_date = some "" → "end_date" ∈ missingFields r
        ∧ (get_location_points_data f d r).httpStatus = 400)
    ∧ (r.end_time = some "" → "end_time" ∈ missingFields r
        ∧ (get_location_points_data f d r).httpStatus = 400) := by
  have hmm := missingFields_normalizeReq r
  obtain ⟨m1, m2, m3, m4⟩ := mem_missing_iff r
  have status400 : missingFields r ≠ [] →
      (get_location_points_data f d r).httpStatus = 400 := fun hne => by
    simp [get_location_points_data, hne, RPResult.httpStatus]
  have main : get_location_points_data f d (normalizeReq r)
      = get_location_points_data f d r := by
    by_cases hm : missingFields r = []
    · have hr : normalizeReq r = r := by
        obtain ⟨h1, h2, h3, h4⟩ := falsy_false_of_missing_nil hm
        show (⟨normalizeField r.start_date, normalizeField r.start_time,
          normalizeField r.end_date, normalizeField r.end_time⟩ : RPRequest) = r
        rw [normalizeField_of_falsy_false h1, normalizeField_of_falsy_false h2,
          normalizeField_of_falsy_false h3, normalizeField_of_falsy_false h4]
      rw [hr]
    · simp [get_location_points_data, hmm, hm]
  refine ⟨main, fun h => ?_, fun h => ?_, fun h => ?_, fun h => ?_⟩
  · have hmem := m1.mpr (by rw [h]; rfl)
    exact ⟨hmem, status400 (List.ne_nil_of_mem hmem)⟩
  · have hmem := m2.mpr (by rw [h]; rfl)
    exact ⟨hmem, status400 (List.ne_nil_of_mem hmem)⟩
  · have hmem := m3.mpr (by rw [h]; rfl)
    exact ⟨hmem, status400 (List.ne_nil_of_mem hmem)⟩
  · have hmem := m4.mpr (by rw [h]; rfl)
    exact ⟨hmem, status400 (List.ne_nil_of_mem hmem)⟩

/-- Witness for C10: the request with an empty `end_time` is rejected with
HTTP 400 and `end_time` listed among the missing fields. -/
theorem claim_C10_witness :
    "end_time" ∈ missingFields reqEmptyEndTime
    ∧ (get_location_points_data none "1" reqEmptyEndTime).httpStatus = 400 :=
  (claim_C10_empty_like_missing none "1" reqEmptyEndTime).2.2.2.2 rfl

end DeviceLoc
